import Mathlib

/-!
Verification of the kubeflow-secrets gateway (`cmd/kubeflow-secrets`, the
binary built by the repository's Dockerfile) against its specification.

The Go sources are shallowly embedded: Go strings become Lean `String`
(identity handling works on `List Char`, the character content), Go byte
slices become `List Nat` (each entry < 256), Go `map[string]string` becomes
an association list `List (String × String)` (a `nil` Go map is `none` of an
`Option`), and the external Kubernetes cluster store is a list of secret
objects with the standard list/get/create/update/delete interface the spec
declares external.
-/

namespace KubeflowSecrets

/-! ## Character-level string helpers (Go `strings` package operations) -/

/-- Whitespace recognised by Go's `strings.TrimSpace` (ASCII subset; the
identifiers and namespaces handled by the gateway are ASCII). -/
def isSpaceChar (c : Char) : Bool :=
  c = ' ' || c = '\t' || c = '\n' || c = '\x0b' || c = '\x0c' || c = '\r'

/-- Drop leading characters satisfying `p`. -/
def trimLeftBy (p : Char → Bool) (l : List Char) : List Char :=
  l.dropWhile p

/-- Drop trailing characters satisfying `p`. -/
def trimRightBy (p : Char → Bool) (l : List Char) : List Char :=
  (l.reverse.dropWhile p).reverse

/-- Go `strings.Trim`-style trim on both ends. -/
def trimBy (p : Char → Bool) (l : List Char) : List Char :=
  trimRightBy p (trimLeftBy p l)

/-- Go `strings.TrimSpace` on character lists. -/
def trimSpaceChars (l : List Char) : List Char :=
  trimBy isSpaceChar l

/-- Go `strings.Trim(v, "\"")`: strip all leading/trailing quote characters. -/
def trimQuoteChars (l : List Char) : List Char :=
  trimBy (fun c => c = '"') l

/-- Go `strings.ToLower` (ASCII; `Char.toLower` lower-cases exactly A–Z). -/
def toLowerChars (l : List Char) : List Char :=
  l.map Char.toLower

/-- Go `strings.TrimSpace` on `String`. -/
def goTrimSpace (s : String) : String :=
  String.mk (trimSpaceChars s.data)

/-- Byte index of the last occurrence of `c` (Go `strings.LastIndex` for a
one-character separator; on ASCII data byte and character indices agree). -/
def lastIndexOf (l : List Char) (c : Char) : Option Nat :=
  match l with
  | [] => none
  | x :: xs =>
    match lastIndexOf xs c with
    | some i => some (i + 1)
    | none => if x = c then some 0 else none

/-! ## Identity matcher (`cmd/kubeflow-secrets/kube.go`) -/

/-- `sanitizeForLog` from `kube.go`: `strings.TrimSpace(strings.Trim(v, "\""))`
— quotes stripped first, then whitespace trimmed. -/
def sanitizeForLog (v : List Char) : List Char :=
  trimSpaceChars (trimQuoteChars v)

/-- `normalizeIdentity` from `kube.go`: `strings.ToLower(sanitizeForLog(v))`. -/
def normalizeIdentity (v : List Char) : List Char :=
  toLowerChars (sanitizeForLog v)

/-- The `addSuffix` closure inside `identityCandidates`: when `sep` occurs and
is not the final character, append the trimmed non-empty suffix after its last
occurrence unless it was already collected (`seen` in the Go code is exactly
the set of entries of the accumulator). -/
def addSuffix (normalized : List Char) (sep : Char) (acc : List (List Char)) :
    List (List Char) :=
  match lastIndexOf normalized sep with
  | none => acc
  | some idx =>
    if idx + 1 < normalized.length then
      let suffix := trimSpaceChars (normalized.drop (idx + 1))
      if suffix = [] then acc
      else if suffix ∈ acc then acc
      else acc ++ [suffix]
    else acc

/-- `identityCandidates` from `kube.go`: the normalized identity together with
the suffix after the last `':'`, `'|'` and `'#'` (in that order, de-duplicated);
empty normalized input yields no candidates. -/
def identityCandidates (v : List Char) : List (List Char) :=
  let normalized := normalizeIdentity v
  if normalized = [] then []
  else addSuffix normalized '#' (addSuffix normalized '|' (addSuffix normalized ':' [normalized]))

/-- `identitiesMatch` from `kube.go`: false when either candidate list is
empty, otherwise true iff some element of `b` occurs in `a` (the Go code
materialises `a` as a hash set and scans `b`). -/
def identitiesMatch (a b : List (List Char)) : Bool :=
  if a.isEmpty || b.isEmpty then false
  else b.any (fun item => a.contains item)

/-- Normalization exactly as C5's words order the steps: trimmed, then
surrounding quotes stripped, then lower-cased. The source's
`normalizeIdentity` strips quotes before trimming; this definition exists to
compare the claim's wording with the source. -/
def claimNormalizeIdentity (v : List Char) : List Char :=
  toLowerChars (trimQuoteChars (trimSpaceChars v))

example : normalizeIdentity " \"alice\" ".data = "\"alice\"".data := by decide
example : claimNormalizeIdentity " \"alice\" ".data = "alice".data := by decide
example : identityCandidates "ldap:Alice@example.com".data =
    ["ldap:alice@example.com".data, "alice@example.com".data] := by decide
example : identitiesMatch (identityCandidates "ldap:alice@example.com".data)
    (identityCandidates "alice@example.com".data) = true := by decide
example : identitiesMatch (identityCandidates " \"alice\" ".data)
    (identityCandidates "alice".data) = false := by decide

/-! ## String maps (Go `map[string]string`; `none` models a `nil` map) -/

/-- Contents of a Go `map[string]string` as an association list. Kept
duplicate-free by construction: `setMapKey` removes the old binding. -/
abbrev StrMap := List (String × String)

/-- Go map read `m[k]` (`some` when the key is present). -/
def lookupMap (m : StrMap) (k : String) : Option String :=
  (m.find? (fun kv => kv.1 = k)).map (·.2)

/-- Go map write `m[k] = v`. -/
def setMapKey (m : StrMap) (k v : String) : StrMap :=
  m.filter (fun kv => kv.1 ≠ k) ++ [(k, v)]

/-- `copyStringMap` from `main.go`: `nil` in, `nil` out; otherwise a fresh map
with the same entries (content-identical in this pure model). -/
def copyStringMap (m : Option StrMap) : Option StrMap :=
  match m with
  | none => none
  | some l => some l

/-! ## Constants (`cmd/kubeflow-secrets/kube.go` server section, `corev1`) -/

def managedByLabelKey : String := "managed-by"

def managedByLabelValue : String := "kubeflow-secrets"

def secretTypeOpaque : String := "Opaque"

def secretTypeDockerConfigJson : String := "kubernetes.io/dockerconfigjson"

def secretTypeServiceAccountToken : String := "kubernetes.io/service-account-token"

def secretTypeBootstrapToken : String := "bootstrap.kubernetes.io/token"

/-- `corev1.DockerConfigJsonKey`. -/
def dockerConfigJsonKey : String := ".dockerconfigjson"

/-- `allowedTypes` of `newServer`. -/
def serverAllowedTypes : List String := [secretTypeOpaque, secretTypeDockerConfigJson]

/-- `blockedTypes` of `newServer`. -/
def serverBlockedTypes : List String := [secretTypeServiceAccountToken, secretTypeBootstrapToken]

/-- `managedLabelSelector()` from `main.go`: the `key=value` equality selector
string sent to the backend list call. -/
def managedLabelSelector : String := managedByLabelKey ++ "=" ++ managedByLabelValue

/-- `ensureManagedLabels` from `main.go`: copy the (possibly `nil`) label map,
allocate when `nil`, and forcibly set the management marker. -/
def ensureManagedLabels (m : Option StrMap) : StrMap :=
  let labels :=
    match copyStringMap m with
    | none => []
    | some l => l
  setMapKey labels managedByLabelKey managedByLabelValue

/-! ## Bytes, base64 (`encoding/base64` StdEncoding) and UTF-8 (`unicode/utf8`) -/

/-- A Go `[]byte` as a list of byte values. -/
abbrev Bytes := List Nat

/-- The standard base64 alphabet character for a 6-bit value. -/
def b64Char (n : Nat) : Char :=
  "ABCDEFGHIJKLMNOPQRSTUVWXYZabcdefghijklmnopqrstuvwxyz0123456789+/".data.getD n '='

/-- `base64.StdEncoding.EncodeToString`, three input bytes per four output
characters with `=` padding. -/
def encodeBase64 : Bytes → List Char
  | [] => []
  | [b0] => [b64Char (b0 / 4), b64Char (b0 % 4 * 16), '=', '=']
  | [b0, b1] => [b64Char (b0 / 4), b64Char (b0 % 4 * 16 + b1 / 16), b64Char (b1 % 16 * 4), '=']
  | b0 :: b1 :: b2 :: rest =>
    b64Char (b0 / 4) :: b64Char (b0 % 4 * 16 + b1 / 16) ::
      b64Char (b1 % 16 * 4 + b2 / 64) :: b64Char (b2 % 64) :: encodeBase64 rest

/-- `base64.StdEncoding.EncodeToString` producing a `String`. -/
def encodeBase64Str (bytes : Bytes) : String :=
  String.mk (encodeBase64 bytes)

/-- The 6-bit value of a standard base64 alphabet character. -/
def b64Val (c : Char) : Option Nat :=
  if 'A' ≤ c ∧ c ≤ 'Z' then some (c.toNat - 'A'.toNat)
  else if 'a' ≤ c ∧ c ≤ 'z' then some (c.toNat - 'a'.toNat + 26)
  else if '0' ≤ c ∧ c ≤ '9' then some (c.toNat - '0'.toNat + 52)
  else if c = '+' then some 62
  else if c = '/' then some 63
  else none

/-- Decode complete four-character base64 groups; `=` padding is accepted only
in the final group. -/
def decodeBase64Groups : List Char → Option Bytes
  | [] => some []
  | c0 :: c1 :: c2 :: c3 :: rest => do
    let v0 ← b64Val c0
    let v1 ← b64Val c1
    if c2 = '=' then
      if c3 = '=' ∧ rest = [] then some [v0 * 4 + v1 / 16] else none
    else do
      let v2 ← b64Val c2
      if c3 = '=' then
        if rest = [] then some [v0 * 4 + v1 / 16, v1 % 16 * 16 + v2 / 4] else none
      else do
        let v3 ← b64Val c3
        let tail ← decodeBase64Groups rest
        some ((v0 * 4 + v1 / 16) :: (v1 % 16 * 16 + v2 / 4) :: (v2 % 4 * 64 + v3) :: tail)
  | _ => none

/-- `base64.StdEncoding.DecodeString`: newline characters are ignored, the
rest must be complete padded groups. -/
def decodeBase64 (s : String) : Option Bytes :=
  decodeBase64Groups (s.data.filter (fun c => c ≠ '\n' ∧ c ≠ '\r'))

/-- UTF-8 continuation byte. -/
def isContByte (b : Nat) : Bool := 0x80 ≤ b && b ≤ 0xBF

/-- Decode a byte list as UTF-8, rejecting exactly what Go's `utf8.Valid`
rejects (overlong forms, surrogates, out-of-range code points, truncation). -/
def utf8Decode : Bytes → Option (List Char)
  | [] => some []
  | b :: rest =>
    if b < 0x80 then
      (utf8Decode rest).map (fun cs => Char.ofNat b :: cs)
    else if 0xC2 ≤ b ∧ b ≤ 0xDF then
      match rest with
      | c1 :: rest2 =>
        if isContByte c1 then
          (utf8Decode rest2).map (fun cs => Char.ofNat ((b - 0xC0) * 0x40 + (c1 - 0x80)) :: cs)
        else none
      | [] => none
    else if 0xE0 ≤ b ∧ b ≤ 0xEF then
      match rest with
      | c1 :: c2 :: rest2 =>
        let c1ok :=
          if b = 0xE0 then 0xA0 ≤ c1 && c1 ≤ 0xBF
          else if b = 0xED then 0x80 ≤ c1 && c1 ≤ 0x9F
          else isContByte c1
        if c1ok && isContByte c2 then
          (utf8Decode rest2).map (fun cs =>
            Char.ofNat ((b - 0xE0) * 0x1000 + (c1 - 0x80) * 0x40 + (c2 - 0x80)) :: cs)
        else none
      | _ => none
    else if 0xF0 ≤ b ∧ b ≤ 0xF4 then
      match rest with
      | c1 :: c2 :: c3 :: rest2 =>
        let c1ok :=
          if b = 0xF0 then 0x90 ≤ c1 && c1 ≤ 0xBF
          else if b = 0xF4 then 0x80 ≤ c1 && c1 ≤ 0x8F
          else isContByte c1
        if c1ok && isContByte c2 && isContByte c3 then
          (utf8Decode rest2).map (fun cs =>
            Char.ofNat ((b - 0xF0) * 0x40000 + (c1 - 0x80) * 0x1000 +
              (c2 - 0x80) * 0x40 + (c3 - 0x80)) :: cs)
        else none
      | _ => none
    else none

/-- UTF-8 encoding of one character (what `[]byte(s)` holds per character). -/
def utf8EncodeChar (c : Char) : Bytes :=
  let n := c.toNat
  if n < 0x80 then [n]
  else if n < 0x800 then [0xC0 + n / 0x40, 0x80 + n % 0x40]
  else if n < 0x10000 then [0xE0 + n / 0x1000, 0x80 + n / 0x40 % 0x40, 0x80 + n % 0x40]
  else [0xF0 + n / 0x40000, 0x80 + n / 0x1000 % 0x40, 0x80 + n / 0x40 % 0x40, 0x80 + n % 0x40]

/-- Go `[]byte(s)` for a string. -/
def strBytes (s : String) : Bytes :=
  s.data.foldr (fun c acc => utf8EncodeChar c ++ acc) []

example : encodeBase64Str (strBytes "b") = "Yg==" := by decide
example : decodeBase64 "Yg==" = some [98] := by decide
example : decodeBase64 "not-base64!" = none := by decide
example : utf8Decode (strBytes "b") = some ['b'] := by decide

/-! ## DNS-1123 subdomain validation (`k8s.io/apimachinery` `validation`) -/

/-- Lowercase alphanumeric. -/
def isAlnumLower (c : Char) : Bool :=
  ('a' ≤ c && c ≤ 'z') || ('0' ≤ c && c ≤ '9')

/-- Split on `'.'` (empty segments preserved, as the validation regex sees
them). -/
def splitOnDot (l : List Char) : List (List Char) :=
  l.foldr
    (fun c acc =>
      if c = '.' then [] :: acc
      else
        match acc with
        | [] => [[c]]
        | g :: gs => (c :: g) :: gs)
    [[]]

/-- One DNS-1123 label: non-empty, `[a-z0-9-]` characters, alphanumeric at
both ends. -/
def isDNS1123Label (l : List Char) : Bool :=
  match l with
  | [] => false
  | c :: _ =>
    isAlnumLower c && l.all (fun d => isAlnumLower d || d = '-') &&
      isAlnumLower (l.getLastD 'a')

/-- `validation.IsDNS1123Subdomain` as a boolean: length at most 253 and every
dot-separated label valid. The Go function returns the list of violation
messages; only its emptiness is ever inspected. -/
def isDNS1123Subdomain (s : String) : Bool :=
  s.data.length ≤ 253 && (splitOnDot s.data).all isDNS1123Label

example : isDNS1123Subdomain "my-secret" = true := by decide
example : isDNS1123Subdomain "My_Secret" = false := by decide
example : isDNS1123Subdomain "" = false := by decide
example : isDNS1123Subdomain "a..b" = false := by decide

/-! ## Data model: secrets, profiles, errors -/

/-- A remote secret object (`corev1.Secret`, the fields the gateway reads or
writes). `Labels`, `Annotations` and `StringData` are `nil`-able Go maps. -/
structure Secret where
  Name : String
  Namespace : String
  /-- The Go field `Type` (`Type` is a Lean keyword). -/
  Typ : String
  Labels : Option StrMap
  Annotations : Option StrMap
  Data : List (String × Bytes)
  StringData : Option StrMap
  ResourceVersion : String
  CreationTimestamp : Nat
deriving DecidableEq, Repr

/-- An ownership record (`Profile` custom resource): its own name is the
namespace, `spec.owner.name` may be absent (`none`). A present-but-ill-typed
owner field (the error return of `unstructured.NestedString`) is outside this
well-typed model. -/
structure Profile where
  name : String
  owner : Option String
deriving DecidableEq, Repr

/-- Failures of namespace resolution: a backend/transport failure of the
registry list, or `errProfileNotFound`. -/
inductive ResolveErr where
  | transport (msg : String)
  | profileNotFound
deriving DecidableEq, Repr

/-- Errors surfaced by backend secret operations plus the gateway's own
`errSecretNotManaged` sentinel, as classified by `mapKubeError`. -/
inductive KubeErr where
  | secretNotManaged
  | forbidden
  | alreadyExists
  | notFound
  | unauthorized
  | other (msg : String)
deriving DecidableEq, Repr

/-- `mapKubeError` from the shared utilities: `errSecretNotManaged` and true
absence both map to `404 "not found"`; unmatched errors fall back to 500 with
the handler-supplied context. -/
def mapKubeError (e : KubeErr) (fallback : String) : Nat × String :=
  match e with
  | .secretNotManaged => (404, "not found")
  | .forbidden => (403, "forbidden")
  | .alreadyExists => (409, "already exists")
  | .notFound => (404, "not found")
  | .unauthorized => (401, "unauthorized")
  | .other msg => (500, fallback ++ ": " ++ msg)

/-- `mapNamespaceResolutionError`: `errProfileNotFound` becomes a 403,
anything else goes through `mapKubeError` with a resolution fallback. -/
def mapNamespaceResolutionError (e : ResolveErr) : Nat × String :=
  match e with
  | .profileNotFound => (403, "no kubeflow profile found for user")
  | .transport msg => mapKubeError (.other msg) "failed to resolve user namespace"

/-- The JSON body `writeError` produces (`errorResponse` marshalled), for
messages without characters needing JSON esceping. -/
def errorResponseJSON (msg : String) : String :=
  "\x7b\"error\":\"" ++ msg ++ "\"\x7d"

/-! ## Namespace resolution (`resolveUserNamespaces`, kube.go) -/

/-- Lexicographic sort (`sort.Strings`). -/
def sortStrings (l : List String) : List String :=
  l.insertionSort (fun a b => a ≤ b)

/-- The loop body of `resolveUserNamespaces`: records with a blank (trimmed)
name or a missing owner are skipped; a record is collected when the owner's
candidate set matches the caller's. -/
def matchingNamespaces (profiles : List Profile) (user : String) : List String :=
  profiles.filterMap (fun p =>
    let ns := goTrimSpace p.name
    if ns = "" then none
    else
      match p.owner with
      | none => none
      | some ownerName =>
        if identitiesMatch (identityCandidates user.data) (identityCandidates ownerName.data)
        then some ns
        else none)

/-- `resolveUserNamespaces`: the registry list result is either a transport
error (propagated) or the record list; zero matches fail with
`errProfileNotFound`, otherwise the matches are returned sorted. -/
def resolveUserNamespaces (listResult : Except String (List Profile)) (user : String) :
    Except ResolveErr (List String) :=
  match listResult with
  | .error e => .error (.transport e)
  | .ok profiles =>
    let owned := matchingNamespaces profiles user
    if owned = [] then .error .profileNotFound
    else .ok (sortStrings owned)

/-! ## The external cluster store

The spec treats the object store as an external resource with standard
list/get/create/update/delete semantics. A cluster state is the list of
secret objects; an equality label selector filters server-side. -/

/-- The whole backend state for secrets. -/
abbrev ClusterState := List Secret

/-- Equality label-selector semantics: the object's label map must bind the
key to the value (a `nil` label map matches nothing). -/
def selectorMatches (sel : Option (String × String)) (s : Secret) : Bool :=
  match sel with
  | none => true
  | some (k, v) =>
    match s.Labels with
    | none => false
    | some labels => lookupMap labels k = some v

/-- Backend `Secrets(ns).List` with an optional equality label selector:
namespace and selector are applied by the server. -/
def kubeListSecrets (st : ClusterState) (ns : String) (sel : Option (String × String)) :
    List Secret :=
  st.filter (fun s => s.Namespace = ns && selectorMatches sel s)

/-- Backend `Secrets(ns).Get`. -/
def kubeGetSecret (st : ClusterState) (ns name : String) : Except KubeErr Secret :=
  match st.find? (fun s => s.Namespace = ns && s.Name = name) with
  | some s => .ok s
  | none => .error .notFound

/-- The standard write-time merge the backend applies to a submitted secret:
every `stringData` entry is stored into `data` as its UTF-8 bytes
(overriding a same-keyed `data` entry) and `stringData` is cleared. The
cluster store is external to the repository; this models its documented
behavior, which C9 references for its round-trip. -/
def applyStringData (sec : Secret) : Secret :=
  { sec with
    Data :=
      (match sec.StringData with
        | none => ([] : StrMap)
        | some m => m).foldl
        (fun (d : List (String × Bytes)) (kv : String × String) =>
          d.filter (fun (e : String × Bytes) => e.1 ≠ kv.1) ++ [(kv.1, strBytes kv.2)]) sec.Data
    StringData := none }

/-- Backend `Secrets(ns).Create`: conflict when the name already exists in
the namespace, otherwise the merged object is stored and returned. -/
def kubeCreateSecret (st : ClusterState) (sec : Secret) :
    Except KubeErr (Secret × ClusterState) :=
  if st.any (fun s => s.Namespace = sec.Namespace && s.Name = sec.Name) then
    .error .alreadyExists
  else
    let stored := applyStringData sec
    .ok (stored, st ++ [stored])

/-- Backend `Secrets(ns).Update`: replaces the object with the merged
submitted one; absent objects report not-found. -/
def kubeUpdateSecret (st : ClusterState) (sec : Secret) :
    Except KubeErr (Secret × ClusterState) :=
  if st.any (fun s => s.Namespace = sec.Namespace && s.Name = sec.Name) then
    let stored := applyStringData sec
    .ok (stored,
      st.map (fun s => if s.Namespace = sec.Namespace && s.Name = sec.Name then stored else s))
  else .error .notFound

/-- Backend `Secrets(ns).Delete`. -/
def kubeDeleteSecret (st : ClusterState) (ns name : String) :
    Except KubeErr ClusterState :=
  if st.any (fun s => s.Namespace = ns && s.Name = name) then
    .ok (st.filter (fun s => ¬(s.Namespace = ns && s.Name = name)))
  else .error .notFound

/-- A namespaced event object, for the events subresource (`corev1.Event`,
the fields the gateway touches). -/
structure KubeEvent where
  InvolvedKind : String
  InvolvedNamespace : String
  InvolvedName : String
  EvType : String
  Reason : String
  Message : String
  Count : Nat
  FirstSeen : Nat
  LastSeen : Nat
  Source : String
deriving DecidableEq, Repr

/-- Backend `Events(ns).List` with the field selector
`involvedObject.kind=Secret,involvedObject.namespace=ns,involvedObject.name=name`. -/
def kubeListEvents (events : List KubeEvent) (ns name : String) : List KubeEvent :=
  events.filter (fun e =>
    e.InvolvedKind = "Secret" && e.InvolvedNamespace = ns && e.InvolvedName = name)

/-! ## Managed-secret filter and validator/builder (`main.go`) -/

/-- `isManagedSecret`: a `nil` label map is unmanaged; otherwise the
management marker must bind exactly the expected value. -/
def isManagedSecret (secret : Secret) : Bool :=
  match secret.Labels with
  | none => false
  | some labels => lookupMap labels managedByLabelKey = some managedByLabelValue

/-- `getManagedSecret`: backend get, then the managed filter; an unmanaged
object surfaces as `errSecretNotManaged` without being returned. -/
def getManagedSecret (st : ClusterState) (ns name : String) : Except KubeErr Secret :=
  match kubeGetSecret st ns name with
  | .error e => .error e
  | .ok secret =>
    if isManagedSecret secret then .ok secret else .error .secretNotManaged

/-- The decoded JSON of a `secretUpsertRequest` payload (`types.go`), with
`nil`-able maps as `Option`. -/
structure SecretUpsertRequest where
  Namespace : String
  Name : String
  Typ : String
  Data : Option StrMap
  StringData : Option StrMap
  Labels : Option StrMap
  Annotations : Option StrMap
deriving DecidableEq, Repr

/-- The validation failures of `validateAndBuildSecret`, one constructor per
distinct error message site. -/
inductive BuildErr where
  | namespaceRequired
  | nameRequired
  | invalidName
  | typeBlocked (t : String)
  | typeNotAllowed (t : String)
  | dataRequired
  | emptyDataKey
  | invalidBase64 (key : String)
  | dockerKeyRequired
deriving DecidableEq, Repr

/-- The exact `err.Error()` strings handlers write with status 400. -/
def buildErrMessage : BuildErr → String
  | .namespaceRequired => "namespace is required"
  | .nameRequired => "name is required"
  | .invalidName => "invalid secret name"
  | .typeBlocked t => "secret type \"" ++ t ++ "\" is not allowed"
  | .typeNotAllowed t => "secret type \"" ++ t ++ "\" is not in allowed list"
  | .dataRequired => "either data or stringData must be provided"
  | .emptyDataKey => "data contains an empty key"
  | .invalidBase64 key => "data[\"" ++ key ++ "\"] is not valid base64"
  | .dockerKeyRequired => "dockerconfigjson secret requires \"" ++ dockerConfigJsonKey ++ "\" key"

/-- The per-entry loop over `req.Data`: blank keys rejected, values decoded
from standard base64 (Go's map iteration order is arbitrary; the entry order
of the association list stands in for it). -/
def decodeDataEntries : StrMap → Except BuildErr (List (String × Bytes))
  | [] => .ok []
  | (k, v) :: rest =>
    if goTrimSpace k = "" then .error .emptyDataKey
    else
      match decodeBase64 v with
      | none => .error (.invalidBase64 k)
      | some bytes =>
        match decodeDataEntries rest with
        | .error e => .error e
        | .ok m => .ok ((k, bytes) :: m)

/-- `validateAndBuildSecret` (kube.go server variant): checks in source
order — namespace, name blankness, DNS-1123 name syntax, default type,
blocked set, allowed set, data presence, per-key decoding, dockerconfigjson
required key — and builds the object with `ensureManagedLabels` on labels and
copies of the other maps. Parameterized by the server's allow/block sets. -/
def validateAndBuildSecret (allowedTypes blockedTypes : List String)
    (req : SecretUpsertRequest) : Except BuildErr Secret :=
  let namespaceTrimmed := goTrimSpace req.Namespace
  let name := goTrimSpace req.Name
  if namespaceTrimmed = "" then .error .namespaceRequired
  else if name = "" then .error .nameRequired
  else if ¬isDNS1123Subdomain name then .error .invalidName
  else
    let secretType := if req.Typ = "" then secretTypeOpaque else req.Typ
    if secretType ∈ blockedTypes then .error (.typeBlocked secretType)
    else if secretType ∉ allowedTypes then .error (.typeNotAllowed secretType)
    else if (req.Data.getD []).length = 0 ∧ (req.StringData.getD []).length = 0 then
      .error .dataRequired
    else
      match decodeDataEntries (req.Data.getD []) with
      | .error e => .error e
      | .ok decodedData =>
        if secretType = secretTypeDockerConfigJson ∧
            (decodedData.find? (fun kv => kv.1 = dockerConfigJsonKey)).isNone ∧
            (lookupMap (req.StringData.getD []) dockerConfigJsonKey).isNone then
          .error .dockerKeyRequired
        else
          .ok
            { Name := name
              Namespace := namespaceTrimmed
              Typ := secretType
              Labels := some (ensureManagedLabels req.Labels)
              Annotations := copyStringMap req.Annotations
              Data := decodedData
              StringData := copyStringMap req.StringData
              ResourceVersion := ""
              CreationTimestamp := 0 }

/-- The fields of `secretDetailResponse` (`types.go`). -/
structure SecretDetailResponse where
  Name : String
  Namespace : String
  Typ : String
  CreationTimestamp : Nat
  Labels : Option StrMap
  Annotations : Option StrMap
  Data : StrMap
  StringData : StrMap
deriving DecidableEq, Repr

/-- `secretToDetail`: every data value re-encoded as base64; UTF-8-valid
values additionally exposed under `stringData`; label/annotation maps
copied. -/
def secretToDetail (secret : Secret) : SecretDetailResponse :=
  { Name := secret.Name
    Namespace := secret.Namespace
    Typ := secret.Typ
    CreationTimestamp := secret.CreationTimestamp
    Labels := copyStringMap secret.Labels
    Annotations := copyStringMap secret.Annotations
    Data := secret.Data.map (fun kv => (kv.1, encodeBase64Str kv.2))
    StringData :=
      secret.Data.filterMap (fun kv =>
        match utf8Decode kv.2 with
        | some cs => some (kv.1, String.mk cs)
        | none => none) }

/-! ## HTTP surface: request scoping and handlers (kube.go) -/

/-- The parts of an inbound request the request scoper and handlers read:
the user-identity header, the two namespace query parameters and the two
namespace headers, and the decoded upsert payload for POST/PUT. Groups and
the impersonated client construction (no network effect, spec §4.4) carry no
claim-relevant state and are omitted. -/
structure Request where
  headerUser : String
  queryNamespace : String
  queryNs : String
  headerXKubeflowNamespace : String
  headerKubeflowNamespace : String
deriving DecidableEq, Repr

/-- `firstNonEmpty` from the shared utilities: the first argument whose
trimmed form is non-blank, else `""`. -/
def firstNonEmpty : List String → String
  | [] => ""
  | v :: rest => if goTrimSpace v ≠ "" then v else firstNonEmpty rest

/-- `identityFromRequest`: the user header must be non-blank after trimming. -/
def identityFromRequest (r : Request) : Except String String :=
  let user := goTrimSpace r.headerUser
  if user = "" then .error "missing kubeflow-userid header" else .ok user

/-- `requestedNamespace`: first non-blank among the `namespace` query
parameter, the `ns` query parameter, the `x-kubeflow-namespace` header and
the `kubeflow-namespace` header, each trimmed. -/
def requestedNamespace (r : Request) : String :=
  firstNonEmpty
    [goTrimSpace r.queryNamespace, goTrimSpace r.queryNs,
      goTrimSpace r.headerXKubeflowNamespace, goTrimSpace r.headerKubeflowNamespace]

/-- `resolveNamespaceFromRequest`: no owned namespaces fails; a blank request
defaults to the first owned namespace; otherwise the requested one must be
among the owned. -/
def resolveNamespaceFromRequest (r : Request) (allowedNamespaces : List String) :
    Option String :=
  match allowedNamespaces with
  | [] => none
  | first :: _ =>
    let requested := requestedNamespace r
    if requested = "" then some first
    else if requested ∈ allowedNamespaces then some requested
    else none

/-- `userContext`: identity extraction (401 on failure), namespace
resolution (mapped status on failure), then the request-namespace check
(403 on mismatch). On success the handler receives only the namespace (the
impersonated client is the backend state threaded separately). -/
def userContext (profilesResult : Except String (List Profile)) (r : Request) :
    Except (Nat × String) String :=
  match identityFromRequest r with
  | .error msg => .error (401, msg)
  | .ok user =>
    match resolveUserNamespaces profilesResult user with
    | .error e => .error (mapNamespaceResolutionError e)
    | .ok userNamespaces =>
      match resolveNamespaceFromRequest r userNamespaces with
      | none => .error (403, "requested namespace is not owned by current user")
      | some ns => .ok ns

/-- One line of `secretListResponse.items`. -/
structure SecretListItem where
  Name : String
  Namespace : String
  Typ : String
  CreationTimestamp : Nat
deriving DecidableEq, Repr

/-- One line of `secretEventsResponse.items`. -/
structure SecretEventItem where
  EvType : String
  Reason : String
  Message : String
  Count : Nat
  FirstSeen : Nat
  LastSeen : Nat
  Source : String
deriving DecidableEq, Repr

/-- The JSON body of a handler response; `err` renders as
`errorResponseJSON`. -/
inductive Body where
  | err (msg : String)
  | namespaces (l : List String)
  | secretList (items : List SecretListItem)
  | detail (d : SecretDetailResponse)
  | upsert (name ns typ : String)
  | deleted (name ns : String) (ok : Bool)
  | eventList (items : List SecretEventItem)
  | yamlDoc (secret : Secret)
deriving DecidableEq, Repr

/-- An HTTP response: status code and body. -/
abbrev Response := Nat × Body

/-- `handleSecretsList`: a non-blank `namespace` query parameter differing
from the scoped namespace is rejected 403; otherwise the backend is listed
with the managed-label selector and every returned object is mapped to a
list item, sorted by name — no client-side filtering. -/
def handleSecretsList (st : ClusterState) (r : Request) (userNamespace : String) :
    Response :=
  if goTrimSpace r.queryNamespace ≠ "" ∧ goTrimSpace r.queryNamespace ≠ userNamespace then
    (403, .err "cross-namespace access is not allowed")
  else
    let secretList :=
      kubeListSecrets st userNamespace (some (managedByLabelKey, managedByLabelValue))
    let items := secretList.map (fun s =>
      SecretListItem.mk s.Name s.Namespace s.Typ s.CreationTimestamp)
    (200, .secretList (items.insertionSort (fun a b => a.Name ≤ b.Name)))

/-- `handleSecretCreate`: payload-namespace cross-check (403), then the
namespace is forced to the scoped one, `ensureManagedLabels` applied, the
payload validated and built (400 on failure), and the backend create issued
(mapped on failure, 201 on success). -/
def handleSecretCreate (st : ClusterState) (userNamespace : String)
    (req : SecretUpsertRequest) : Response × ClusterState :=
  if goTrimSpace req.Namespace ≠ "" ∧ goTrimSpace req.Namespace ≠ userNamespace then
    ((403, .err "cross-namespace access is not allowed"), st)
  else
    let req1 := { req with Namespace := userNamespace, Labels := some (ensureManagedLabels req.Labels) }
    match validateAndBuildSecret serverAllowedTypes serverBlockedTypes req1 with
    | .error e => ((400, .err (buildErrMessage e)), st)
    | .ok secret =>
      match kubeCreateSecret st secret with
      | .error e =>
        let (status, msg) := mapKubeError e "failed to create secret"
        ((status, .err msg), st)
      | .ok (created, st') =>
        ((201, .upsert created.Name created.Namespace created.Typ), st')

/-- `handleSecretGet`. -/
def handleSecretGet (st : ClusterState) (userNamespace secretName : String) : Response :=
  match getManagedSecret st userNamespace secretName with
  | .error e =>
    let (status, msg) := mapKubeError e "failed to get secret"
    (status, .err msg)
  | .ok secret => (200, .detail (secretToDetail secret))

/-- `handleSecretEvents`: the managed-secret gate first, then the events list
filtered by field selector and sorted by last-seen descending (stable). -/
def handleSecretEvents (st : ClusterState) (events : List KubeEvent)
    (userNamespace secretName : String) : Response :=
  match getManagedSecret st userNamespace secretName with
  | .error e =>
    let (status, msg) := mapKubeError e "failed to get secret events"
    (status, .err msg)
  | .ok _ =>
    let items := (kubeListEvents events userNamespace secretName).map (fun e =>
      SecretEventItem.mk e.EvType e.Reason e.Message e.Count e.FirstSeen e.LastSeen e.Source)
    (200, .eventList (items.insertionSort (fun a b => b.LastSeen ≤ a.LastSeen)))

/-- `handleSecretYAML`: the managed-secret gate, then the object (managed
fields cleared by the handler before rendering; rendering itself is the
external `yaml.Marshal`). -/
def handleSecretYAML (st : ClusterState) (userNamespace secretName : String) : Response :=
  match getManagedSecret st userNamespace secretName with
  | .error e =>
    let (status, msg) := mapKubeError e "failed to get secret yaml"
    (status, .err msg)
  | .ok secret => (200, .yamlDoc secret)

/-- The payload rewriting block of `handleSecretUpdate` (kube.go lines
673–681): path name and scoped namespace are authoritative; `nil` labels and
`nil` annotation maps are carried forward from the existing object;
`ensureManagedLabels` is applied. -/
def updateEffectiveRequest (existing : Secret) (userNamespace secretName : String)
    (req : SecretUpsertRequest) : SecretUpsertRequest :=
  let req1 := { req with Namespace := userNamespace, Name := secretName }
  let req2 :=
    if req1.Labels = none then { req1 with Labels := copyStringMap existing.Labels } else req1
  let req3 :=
    if req2.Annotations = none then
      { req2 with Annotations := copyStringMap existing.Annotations }
    else req2
  { req3 with Labels := some (ensureManagedLabels req3.Labels) }

/-- `handleSecretUpdate`: managed-secret gate (mapped error), payload
namespace cross-check (403), payload/path name mismatch (400), then the
effective request is validated and built, stamped with the existing resource
version, and sent as a backend update. -/
def handleSecretUpdate (st : ClusterState) (userNamespace secretName : String)
    (req : SecretUpsertRequest) : Response × ClusterState :=
  match getManagedSecret st userNamespace secretName with
  | .error e =>
    let (status, msg) := mapKubeError e "failed to update secret"
    ((status, .err msg), st)
  | .ok existing =>
    if goTrimSpace req.Namespace ≠ "" ∧ goTrimSpace req.Namespace ≠ userNamespace then
      ((403, .err "cross-namespace access is not allowed"), st)
    else if goTrimSpace req.Name ≠ "" ∧ goTrimSpace req.Name ≠ secretName then
      ((400, .err "secret name in payload does not match path"), st)
    else
      match validateAndBuildSecret serverAllowedTypes serverBlockedTypes
          (updateEffectiveRequest existing userNamespace secretName req) with
      | .error e => ((400, .err (buildErrMessage e)), st)
      | .ok updatedSecret =>
        let submitted := { updatedSecret with ResourceVersion := existing.ResourceVersion }
        match kubeUpdateSecret st submitted with
        | .error e =>
          let (status, msg) := mapKubeError e "failed to update secret"
          ((status, .err msg), st)
        | .ok (updated, st') =>
          ((200, .upsert updated.Name updated.Namespace updated.Typ), st')

/-- `handleSecretDelete`: managed-secret gate, then the backend delete. -/
def handleSecretDelete (st : ClusterState) (userNamespace secretName : String) :
    Response × ClusterState :=
  match getManagedSecret st userNamespace secretName with
  | .error e =>
    let (status, msg) := mapKubeError e "failed to delete secret"
    ((status, .err msg), st)
  | .ok _ =>
    match kubeDeleteSecret st userNamespace secretName with
    | .error e =>
      let (status, msg) := mapKubeError e "failed to delete secret"
      ((status, .err msg), st)
    | .ok st' => ((200, .deleted secretName userNamespace true), st')

/-- HTTP methods used by the two secret endpoints. -/
inductive Method where
  | get
  | post
  | put
  | del
deriving DecidableEq, Repr

/-- `handleSecrets` (the `/api/secrets` endpoint): `userContext` gates every
method; GET lists, POST creates, anything else is 405. -/
def serveSecrets (profilesResult : Except String (List Profile)) (r : Request)
    (st : ClusterState) (method : Method) (payload : SecretUpsertRequest) :
    Response × ClusterState :=
  match userContext profilesResult r with
  | .error (status, msg) => ((status, .err msg), st)
  | .ok userNamespace =>
    match method with
    | .get => (handleSecretsList st r userNamespace, st)
    | .post => handleSecretCreate st userNamespace payload
    | _ => ((405, .err "method not allowed"), st)

/-- `handleSecretByName` (the `/api/secrets/{name}` endpoint, with the name
and optional subresource already parsed from the path): `userContext` gates
every method; then GET/PUT/DELETE on the plain name and GET on the
`events`/`yaml` subresources. -/
def serveSecretByName (profilesResult : Except String (List Profile)) (r : Request)
    (st : ClusterState) (events : List KubeEvent) (method : Method)
    (secretName : String) (subresource : Option String)
    (payload : SecretUpsertRequest) : Response × ClusterState :=
  match userContext profilesResult r with
  | .error (status, msg) => ((status, .err msg), st)
  | .ok userNamespace =>
    match subresource with
    | none =>
      match method with
      | .get => (handleSecretGet st userNamespace secretName, st)
      | .put => handleSecretUpdate st userNamespace secretName payload
      | .del => handleSecretDelete st userNamespace secretName
      | _ => ((405, .err "method not allowed"), st)
    | some sub =>
      if sub = "events" then
        match method with
        | .get => (handleSecretEvents st events userNamespace secretName, st)
        | _ => ((405, .err "method not allowed"), st)
      else if sub = "yaml" then
        match method with
        | .get => (handleSecretYAML st userNamespace secretName, st)
        | _ => ((405, .err "method not allowed"), st)
      else ((400, .err "invalid path"), st)

/-! ## Helper lemmas -/

theorem lookupMap_setMapKey_self (m : StrMap) (k v : String) :
    lookupMap (setMapKey m k v) k = some v := by
  unfold lookupMap setMapKey
  rw [List.find?_append]
  have hnone : (m.filter (fun kv => kv.1 ≠ k)).find? (fun kv => kv.1 = k) = none := by
    rw [List.find?_eq_none]
    intro kv hkv
    have := (List.mem_filter.mp hkv).2
    simpa using this
  simp [hnone]

theorem find?_filter_ne (m : StrMap) (k k' : String) (h : k' ≠ k) :
    (m.filter (fun kv => kv.1 ≠ k)).find? (fun kv => kv.1 = k') =
      m.find? (fun kv => kv.1 = k') := by
  induction m with
  | nil => rfl
  | cons hd tl ih =>
    rw [List.filter_cons]
    by_cases hk : hd.1 = k
    · rw [if_neg (by simp [hk]), ih]
      have hskip : List.find? (fun kv => kv.1 = k') (hd :: tl) =
          List.find? (fun kv => kv.1 = k') tl := by
        rw [List.find?_cons]
        have hdec : (decide (hd.1 = k') : Bool) = false := by simp [hk, Ne.symm h]
        rw [hdec]
      rw [hskip]
    · rw [if_pos (by simp [hk]), List.find?_cons, List.find?_cons]
      cases hdec : (decide (hd.1 = k') : Bool) with
      | false => simp only [hdec]; exact ih
      | true => simp only [hdec]

theorem lookupMap_setMapKey_other (m : StrMap) (k v k' : String) (h : k' ≠ k) :
    lookupMap (setMapKey m k v) k' = lookupMap m k' := by
  unfold lookupMap setMapKey
  rw [List.find?_append, find?_filter_ne m k k' h]
  cases hfind : m.find? (fun kv => kv.1 = k') with
  | none => simp [List.find?_cons, Ne.symm h]
  | some kv => simp

theorem lookupMap_ensureManagedLabels_self (m : Option StrMap) :
    lookupMap (ensureManagedLabels m) managedByLabelKey = some managedByLabelValue := by
  cases m <;> exact lookupMap_setMapKey_self _ _ _

theorem lookupMap_ensureManagedLabels_other (m : Option StrMap) (k : String)
    (h : k ≠ managedByLabelKey) :
    lookupMap (ensureManagedLabels m) k = lookupMap (m.getD []) k := by
  cases m <;> exact lookupMap_setMapKey_other _ _ _ _ h

theorem setMapKey_setMapKey (m : StrMap) (k v v' : String) :
    setMapKey (setMapKey m k v) k v' = setMapKey m k v' := by
  unfold setMapKey
  rw [List.filter_append, List.filter_filter]
  simp

theorem ensureManagedLabels_idem (m : Option StrMap) :
    ensureManagedLabels (some (ensureManagedLabels m)) = ensureManagedLabels m := by
  cases m <;> simp [ensureManagedLabels, copyStringMap, setMapKey_setMapKey]

/-- The managed filter is exactly the equality label selector the list path
sends to the backend. -/
theorem selectorMatches_managed (s : Secret) :
    selectorMatches (some (managedByLabelKey, managedByLabelValue)) s = isManagedSecret s := by
  cases h : s.Labels <;> simp [selectorMatches, isManagedSecret, h]

/-- The backend's stringData merge never touches the label map, so it
preserves the managed marker. -/
theorem isManagedSecret_applyStringData (sec : Secret) :
    isManagedSecret (applyStringData sec) = isManagedSecret sec := by
  cases h : sec.Labels <;> simp [isManagedSecret, applyStringData, h]

/-- `identitiesMatch` is exactly candidate-set intersection: the emptiness
guard rejects precisely the inputs with no possible common candidate. -/
theorem identitiesMatch_iff_intersect (a b : List (List Char)) :
    identitiesMatch a b = true ↔ ∃ c, c ∈ a ∧ c ∈ b := by
  unfold identitiesMatch
  by_cases ha : a = []
  · subst ha; simp
  · by_cases hb : b = []
    · subst hb; simp
    · rw [if_neg (by simp [List.isEmpty_iff, ha, hb]), List.any_eq_true]
      constructor
      · rintro ⟨c, hc, hmem⟩
        exact ⟨c, by simpa using hmem, hc⟩
      · rintro ⟨c, hca, hcb⟩
        exact ⟨c, hcb, by simpa using hca⟩

theorem mem_addSuffix (normalized : List Char) (sep : Char) (acc : List (List Char))
    (x : List Char) (hx : x ∈ acc) : x ∈ addSuffix normalized sep acc := by
  unfold addSuffix
  cases lastIndexOf normalized sep with
  | none => exact hx
  | some idx =>
    by_cases hlen : idx + 1 < normalized.length
    · simp only [hlen, if_true]
      by_cases hemp : trimSpaceChars (normalized.drop (idx + 1)) = []
      · simpa [hemp] using hx
      · by_cases hmem : trimSpaceChars (normalized.drop (idx + 1)) ∈ acc
        · simpa [hemp, hmem] using hx
        · simp only [hemp, hmem, if_false]
          exact List.mem_append_left _ hx
    · simpa [hlen] using hx

theorem normalize_mem_identityCandidates (u : List Char) (h : normalizeIdentity u ≠ []) :
    normalizeIdentity u ∈ identityCandidates u := by
  unfold identityCandidates
  simp only [h, if_false]
  exact mem_addSuffix _ _ _ _ (mem_addSuffix _ _ _ _ (mem_addSuffix _ _ _ _ (by simp)))

theorem dropWhile_dropWhile (p : Char → Bool) (l : List Char) :
    (l.dropWhile p).dropWhile p = l.dropWhile p := by
  induction l with
  | nil => rfl
  | cons h t ih =>
    by_cases hp : p h
    · simp only [List.dropWhile_cons, hp, if_true]
      exact ih
    · simp [List.dropWhile_cons, hp]

theorem trimRightBy_idem (p : Char → Bool) (x : List Char) :
    trimRightBy p (trimRightBy p x) = trimRightBy p x := by
  unfold trimRightBy
  rw [List.reverse_reverse, dropWhile_dropWhile]

theorem trimRightBy_append (p : Char → Bool) (y : List Char) :
    ∃ t, y = trimRightBy p y ++ t := by
  refine ⟨(y.reverse.takeWhile p).reverse, ?_⟩
  unfold trimRightBy
  calc y = y.reverse.reverse := (List.reverse_reverse y).symm
  _ = (y.reverse.takeWhile p ++ y.reverse.dropWhile p).reverse := by
      rw [List.takeWhile_append_dropWhile]
  _ = (y.reverse.dropWhile p).reverse ++ (y.reverse.takeWhile p).reverse := by
      rw [List.reverse_append]

theorem dropWhile_trimRightBy (p : Char → Bool) (y : List Char)
    (hy : y.dropWhile p = y) :
    (trimRightBy p y).dropWhile p = trimRightBy p y := by
  obtain ⟨t, ht⟩ := trimRightBy_append p y
  cases hw : trimRightBy p y with
  | nil => rfl
  | cons a w =>
    have hya : y = a :: (w ++ t) := by rw [ht, hw]; simp
    have hpa : p a = false := by
      cases hpa' : p a
      · rfl
      · exfalso
        have h1 : y.dropWhile p = (w ++ t).dropWhile p := by
          rw [hya, List.dropWhile_cons, hpa', if_pos rfl]
        have h2 : y.length ≤ (w ++ t).length := by
          calc y.length = (y.dropWhile p).length := by rw [hy]
          _ = ((w ++ t).dropWhile p).length := by rw [h1]
          _ ≤ (w ++ t).length := (List.dropWhile_sublist _).length_le
        have h3 : y.length = (w ++ t).length + 1 := by
          rw [hya]; simp
        omega
    rw [List.dropWhile_cons, hpa]
    simp

theorem trimBy_idem (p : Char → Bool) (l : List Char) :
    trimBy p (trimBy p l) = trimBy p l := by
  unfold trimBy
  have hleft : trimLeftBy p (trimRightBy p (trimLeftBy p l)) =
      trimRightBy p (trimLeftBy p l) := by
    unfold trimLeftBy
    exact dropWhile_trimRightBy p _ (dropWhile_dropWhile p l)
  rw [hleft, trimRightBy_idem]

theorem goTrimSpace_idem (s : String) : goTrimSpace (goTrimSpace s) = goTrimSpace s := by
  unfold goTrimSpace trimSpaceChars
  exact congrArg String.mk (trimBy_idem _ _)

/-- A managed sample secret for concrete instantiations. -/
def sampleManaged : Secret :=
  { Name := "m1", Namespace := "team-a", Typ := "Opaque",
    Labels := some [("managed-by", "kubeflow-secrets")], Annotations := none,
    Data := [], StringData := none, ResourceVersion := "", CreationTimestamp := 0 }

/-- An unmanaged sample secret (no management marker) for concrete
instantiations. -/
def sampleUnmanaged : Secret :=
  { Name := "u1", Namespace := "team-a", Typ := "Opaque",
    Labels := some [("app", "x")], Annotations := none,
    Data := [], StringData := none, ResourceVersion := "", CreationTimestamp := 0 }

/-- An empty upsert payload for concrete instantiations. -/
def samplePayload : SecretUpsertRequest :=
  { Namespace := "", Name := "", Typ := "", Data := none, StringData := none,
    Labels := none, Annotations := none }

theorem getManagedSecret_unmanaged (st : ClusterState) (ns name : String) (sec : Secret)
    (hget : kubeGetSecret st ns name = .ok sec) (h : isManagedSecret sec = false) :
    getManagedSecret st ns name = .error .secretNotManaged := by
  unfold getManagedSecret
  rw [hget]
  simp [h]

/-! ## C1 -/

/-- C1: on the list path the backend query always carries the managed-by
equality label selector, so for every backend state and caller no secret
lacking the label appears among the items, and the handler performs no
client-side filtering: the response items are exactly (a permutation of) the
server-filtered objects, and an item appears iff a managed secret of the
scoped namespace backs it. -/
theorem C1_list_label_selector (st : ClusterState) (r : Request) (userNamespace : String)
    (hok : goTrimSpace r.queryNamespace = "" ∨ goTrimSpace r.queryNamespace = userNamespace) :
    ∃ items,
      handleSecretsList st r userNamespace = (200, .secretList items) ∧
      items.Perm
        ((kubeListSecrets st userNamespace (some (managedByLabelKey, managedByLabelValue))).map
          (fun s => SecretListItem.mk s.Name s.Namespace s.Typ s.CreationTimestamp)) ∧
      (∀ it, it ∈ items ↔ ∃ s, s ∈ st ∧ s.Namespace = userNamespace ∧
        isManagedSecret s = true ∧
        it = SecretListItem.mk s.Name s.Namespace s.Typ s.CreationTimestamp) := by
  have hcond : ¬(goTrimSpace r.queryNamespace ≠ "" ∧ goTrimSpace r.queryNamespace ≠ userNamespace) := by
    rcases hok with h | h <;> simp [h]
  refine
    ⟨((kubeListSecrets st userNamespace (some (managedByLabelKey, managedByLabelValue))).map
        (fun s => SecretListItem.mk s.Name s.Namespace s.Typ s.CreationTimestamp)).insertionSort
          (fun a b => a.Name ≤ b.Name),
      ?_, List.perm_insertionSort _ _, ?_⟩
  · unfold handleSecretsList
    rw [if_neg hcond]
  · intro it
    rw [List.mem_insertionSort]
    constructor
    · intro hit
      obtain ⟨s, hs, rfl⟩ := List.mem_map.mp hit
      have hf := List.mem_filter.mp hs
      have hcond2 := hf.2
      rw [Bool.and_eq_true] at hcond2
      refine ⟨s, hf.1, by simpa using hcond2.1, ?_, rfl⟩
      rw [← selectorMatches_managed]
      exact hcond2.2
    · rintro ⟨s, hs, hns, hman, rfl⟩
      apply List.mem_map_of_mem
      apply List.mem_filter.mpr
      refine ⟨hs, ?_⟩
      rw [Bool.and_eq_true, selectorMatches_managed]
      exact ⟨by simp [hns], hman⟩

theorem C1_list_label_selector_witness :
    (goTrimSpace "" = "" ∨ goTrimSpace "" = "team-a") ∧
      ∃ items,
        handleSecretsList [sampleManaged, sampleUnmanaged]
          ⟨"alice@example.com", "", "", "", ""⟩ "team-a" = (200, .secretList items) ∧
        items.Perm
          ((kubeListSecrets [sampleManaged, sampleUnmanaged]
            "team-a" (some (managedByLabelKey, managedByLabelValue))).map
            (fun s => SecretListItem.mk s.Name s.Namespace s.Typ s.CreationTimestamp)) ∧
        (∀ it, it ∈ items ↔ ∃ s,
          s ∈ [sampleManaged, sampleUnmanaged] ∧
          s.Namespace = "team-a" ∧ isManagedSecret s = true ∧
          it = SecretListItem.mk s.Name s.Namespace s.Typ s.CreationTimestamp) :=
  ⟨Or.inl rfl, C1_list_label_selector _ _ _ (Or.inl rfl)⟩

/-! ## C2 -/

/-- C2: a get, update, delete, events or yaml request naming a secret that
exists in the resolved namespace but is unmanaged (label map missing or the
managed-by value different) fails with 404 and the body "not found", the very
response produced when the secret does not exist at all, and the backend
state is left untouched by update and delete. -/
theorem C2_unmanaged_indistinguishable (st : ClusterState) (events : List KubeEvent)
    (ns name : String) (payload : SecretUpsertRequest) (sec : Secret)
    (hget : kubeGetSecret st ns name = .ok sec) (hunman : isManagedSecret sec = false) :
    (handleSecretGet st ns name = (404, .err "not found") ∧
      handleSecretEvents st events ns name = (404, .err "not found") ∧
      handleSecretYAML st ns name = (404, .err "not found") ∧
      handleSecretUpdate st ns name payload = ((404, .err "not found"), st) ∧
      handleSecretDelete st ns name = ((404, .err "not found"), st)) ∧
    (∀ st2 : ClusterState, kubeGetSecret st2 ns name = .error .notFound →
      handleSecretGet st2 ns name = (404, .err "not found") ∧
      handleSecretEvents st2 events ns name = (404, .err "not found") ∧
      handleSecretYAML st2 ns name = (404, .err "not found") ∧
      handleSecretUpdate st2 ns name payload = ((404, .err "not found"), st2) ∧
      handleSecretDelete st2 ns name = ((404, .err "not found"), st2)) := by
  have hgm := getManagedSecret_unmanaged st ns name sec hget hunman
  constructor
  · refine ⟨?_, ?_, ?_, ?_, ?_⟩
    · simp [handleSecretGet, hgm, mapKubeError]
    · simp [handleSecretEvents, hgm, mapKubeError]
    · simp [handleSecretYAML, hgm, mapKubeError]
    · simp [handleSecretUpdate, hgm, mapKubeError]
    · simp [handleSecretDelete, hgm, mapKubeError]
  · intro st2 h2
    have hgm2 : getManagedSecret st2 ns name = .error .notFound := by
      unfold getManagedSecret
      rw [h2]
    refine ⟨?_, ?_, ?_, ?_, ?_⟩
    · simp [handleSecretGet, hgm2, mapKubeError]
    · simp [handleSecretEvents, hgm2, mapKubeError]
    · simp [handleSecretYAML, hgm2, mapKubeError]
    · simp [handleSecretUpdate, hgm2, mapKubeError]
    · simp [handleSecretDelete, hgm2, mapKubeError]

theorem C2_unmanaged_indistinguishable_witness :
    (kubeGetSecret [sampleUnmanaged] "team-a" "u1" = .ok sampleUnmanaged ∧
      isManagedSecret sampleUnmanaged = false) ∧
    handleSecretDelete [sampleUnmanaged] "team-a" "u1" =
      ((404, .err "not found"), [sampleUnmanaged]) :=
  ⟨⟨rfl, by decide⟩,
    (C2_unmanaged_indistinguishable [sampleUnmanaged] [] "team-a" "u1" samplePayload
      sampleUnmanaged rfl (by decide)).1.2.2.2.2⟩

/-! ## C3 -/

theorem userContext_rejects (profilesResult : Except String (List Profile)) (r : Request)
    (user : String) (nss : List String)
    (hid : identityFromRequest r = .ok user)
    (hres : resolveUserNamespaces profilesResult user = .ok nss)
    (hne : requestedNamespace r ≠ "") (hnot : requestedNamespace r ∉ nss) :
    userContext profilesResult r =
      .error (403, "requested namespace is not owned by current user") := by
  have hnone : resolveNamespaceFromRequest r nss = none := by
    unfold resolveNamespaceFromRequest
    cases nss with
    | nil => rfl
    | cons a t =>
      dsimp only
      rw [if_neg hne, if_neg hnot]
  simp only [userContext, hid, hres, hnone]

/-- C3 counterexample: for the caller `alice@example.com` owning exactly
`team-a`, `GET /api/secrets?namespace=team-b` is rejected with 403 — but by
the request scoper, whose body message is
"requested namespace is not owned by current user", not the claimed
"cross-namespace access is not allowed" (the list handler's own
cross-namespace branch is never reached, since the scoper already resolved
the namespace from the same query parameter). -/
theorem C3_counterexample :
    serveSecrets (.ok [{ name := "team-a", owner := some "alice@example.com" }])
        ⟨"alice@example.com", "team-b", "", "", ""⟩ [] .get samplePayload =
      ((403, .err "requested namespace is not owned by current user"), []) ∧
    ("requested namespace is not owned by current user" : String) ≠
      "cross-namespace access is not allowed" :=
  ⟨rfl, by decide⟩

/-- C3 (amended): the `GET /api/secrets?namespace=team-b` scenario is
rejected with HTTP 403 and the exact body
`{"error":"requested namespace is not owned by current user"}` by the
request scoper; in general, a request naming a foreign non-blank namespace
via a query parameter or namespace header is rejected 403 by the scoper
with that body and the backend state untouched; one naming it via the
payload field is rejected 403
`{"error":"cross-namespace access is not allowed"}` by the create handler
before any write, and by the update handler when the path names an existing
managed secret — when the path secret is absent or unmanaged the update's
managed-secret gate answers first with 404 "not found" — and in every case
no backend secret is created, mutated or deleted (the state is returned
untouched). -/
theorem C3_cross_namespace_forbidden (profilesResult : Except String (List Profile))
    (r : Request) (st : ClusterState) (events : List KubeEvent) (method : Method)
    (payload : SecretUpsertRequest) (secretName : String) (sub : Option String)
    (user : String) (nss : List String) (userNamespace : String) :
    (identityFromRequest r = .ok user →
      resolveUserNamespaces profilesResult user = .ok nss →
      requestedNamespace r ≠ "" → requestedNamespace r ∉ nss →
      serveSecrets profilesResult r st method payload =
        ((403, .err "requested namespace is not owned by current user"), st) ∧
      serveSecretByName profilesResult r st events method secretName sub payload =
        ((403, .err "requested namespace is not owned by current user"), st)) ∧
    errorResponseJSON "requested namespace is not owned by current user" =
      "\x7b\"error\":\"requested namespace is not owned by current user\"\x7d" ∧
    errorResponseJSON "cross-namespace access is not allowed" =
      "\x7b\"error\":\"cross-namespace access is not allowed\"\x7d" ∧
    (goTrimSpace payload.Namespace ≠ "" → goTrimSpace payload.Namespace ≠ userNamespace →
      handleSecretCreate st userNamespace payload =
        ((403, .err "cross-namespace access is not allowed"), st)) ∧
    (∀ existing, getManagedSecret st userNamespace secretName = .ok existing →
      goTrimSpace payload.Namespace ≠ "" → goTrimSpace payload.Namespace ≠ userNamespace →
      handleSecretUpdate st userNamespace secretName payload =
        ((403, .err "cross-namespace access is not allowed"), st)) ∧
    (∀ e, getManagedSecret st userNamespace secretName = .error e →
      e = .notFound ∨ e = .secretNotManaged →
      handleSecretUpdate st userNamespace secretName payload =
        ((404, .err "not found"), st)) := by
  refine ⟨?_, rfl, rfl, ?_, ?_, ?_⟩
  · intro hid hres hne hnot
    have hreject := userContext_rejects profilesResult r user nss hid hres hne hnot
    constructor
    · unfold serveSecrets
      rw [hreject]
    · unfold serveSecretByName
      rw [hreject]
  · intro h1 h2
    unfold handleSecretCreate
    rw [if_pos ⟨h1, h2⟩]
  · intro existing hget h1 h2
    unfold handleSecretUpdate
    rw [hget]
    dsimp only
    rw [if_pos ⟨h1, h2⟩]
  · intro e hgm he
    unfold handleSecretUpdate
    rw [hgm]
    rcases he with rfl | rfl <;> rfl

theorem C3_cross_namespace_forbidden_witness :
    (identityFromRequest ⟨"alice@example.com", "team-b", "", "", ""⟩ = .ok "alice@example.com" ∧
      resolveUserNamespaces (.ok [{ name := "team-a", owner := some "alice@example.com" }])
        "alice@example.com" = .ok ["team-a"] ∧
      requestedNamespace ⟨"alice@example.com", "team-b", "", "", ""⟩ ≠ "" ∧
      requestedNamespace ⟨"alice@example.com", "team-b", "", "", ""⟩ ∉ (["team-a"] : List String) ∧
      goTrimSpace "team-b" ≠ "" ∧ goTrimSpace "team-b" ≠ "team-a" ∧
      getManagedSecret [sampleUnmanaged] "team-a" "u1" = .error .secretNotManaged) ∧
    serveSecretByName (.ok [{ name := "team-a", owner := some "alice@example.com" }])
        ⟨"alice@example.com", "team-b", "", "", ""⟩ [] [] .del "m1" none samplePayload =
      ((403, .err "requested namespace is not owned by current user"), []) ∧
    handleSecretCreate ([] : ClusterState) "team-a"
        { samplePayload with Namespace := "team-b" } =
      ((403, .err "cross-namespace access is not allowed"), []) ∧
    handleSecretUpdate [sampleUnmanaged] "team-a" "u1"
        { samplePayload with Namespace := "team-b" } =
      ((404, .err "not found"), [sampleUnmanaged]) :=
  ⟨⟨rfl, rfl, by decide, by decide, by decide, by decide, rfl⟩,
    ((C3_cross_namespace_forbidden (.ok [{ name := "team-a", owner := some "alice@example.com" }])
      ⟨"alice@example.com", "team-b", "", "", ""⟩ [] [] .del samplePayload "m1" none
      "alice@example.com" ["team-a"] "team-a").1 rfl rfl (by decide) (by decide)).2,
    (C3_cross_namespace_forbidden (.ok [{ name := "team-a", owner := some "alice@example.com" }])
      ⟨"alice@example.com", "team-b", "", "", ""⟩ [] [] .post
      { samplePayload with Namespace := "team-b" } "m1" none
      "alice@example.com" ["team-a"] "team-a").2.2.2.1 (by decide) (by decide),
    (C3_cross_namespace_forbidden (.ok [{ name := "team-a", owner := some "alice@example.com" }])
      ⟨"alice@example.com", "team-b", "", "", ""⟩ [sampleUnmanaged] [] .put
      { samplePayload with Namespace := "team-b" } "u1" none
      "alice@example.com" ["team-a"] "team-a").2.2.2.2.2 .secretNotManaged rfl (Or.inr rfl)⟩

/-! ## C4 -/

/-- C4: namespace resolution skips blank-name and ownerless records; a
transport failure of the registry list propagates as a failure; zero
matching records fail with the profile-not-found error, surfaced as 403;
otherwise the result is exactly the sorted list of all matching namespace
names (matching meaning candidate-set intersection with the caller), a
singleton when exactly one record matches. -/
theorem C4_resolution (user : String) :
    (∀ e, resolveUserNamespaces (.error e) user = .error (.transport e)) ∧
    (∀ p ps, goTrimSpace p.name = "" ∨ p.owner = none →
      resolveUserNamespaces (.ok (p :: ps)) user = resolveUserNamespaces (.ok ps) user) ∧
    (∀ ps, matchingNamespaces ps user = [] →
      resolveUserNamespaces (.ok ps) user = .error .profileNotFound) ∧
    mapNamespaceResolutionError .profileNotFound =
      (403, "no kubeflow profile found for user") ∧
    (∀ ps ns, ns ∈ matchingNamespaces ps user ↔
      ∃ p, p ∈ ps ∧ goTrimSpace p.name = ns ∧ ns ≠ "" ∧
        ∃ o, p.owner = some o ∧
          ∃ c, c ∈ identityCandidates user.data ∧ c ∈ identityCandidates o.data) ∧
    (∀ ps, matchingNamespaces ps user ≠ [] →
      ∃ l, resolveUserNamespaces (.ok ps) user = .ok l ∧
        l.Perm (matchingNamespaces ps user) ∧ l.Sorted (fun a b => a ≤ b) ∧
        (∀ ns, matchingNamespaces ps user = [ns] → l = [ns])) := by
  refine ⟨fun e => rfl, ?_, ?_, rfl, ?_, ?_⟩
  · intro p ps hskip
    have hm : matchingNamespaces (p :: ps) user = matchingNamespaces ps user := by
      unfold matchingNamespaces
      rw [List.filterMap_cons]
      rcases hskip with h | h
      · simp [h]
      · by_cases hname : goTrimSpace p.name = ""
        · simp [hname]
        · simp [hname, h]
    simp only [resolveUserNamespaces, hm]
  · intro ps hempty
    simp only [resolveUserNamespaces, hempty, if_pos]
  · intro ps ns
    unfold matchingNamespaces
    rw [List.mem_filterMap]
    constructor
    · rintro ⟨p, hp, hf⟩
      dsimp only at hf
      by_cases hname : goTrimSpace p.name = ""
      · rw [if_pos hname] at hf
        exact absurd hf (by simp)
      · rw [if_neg hname] at hf
        cases howner : p.owner with
        | none =>
          rw [howner] at hf
          exact absurd hf (by simp)
        | some o =>
          rw [howner] at hf
          dsimp only at hf
          by_cases hmatch :
              identitiesMatch (identityCandidates user.data) (identityCandidates o.data) = true
          · rw [if_pos hmatch] at hf
            have hns : goTrimSpace p.name = ns := Option.some.inj hf
            exact ⟨p, hp, hns, fun hc => hname (hns.trans hc), o, howner,
              (identitiesMatch_iff_intersect _ _).mp hmatch⟩
          · rw [if_neg hmatch] at hf
            exact absurd hf (by simp)
    · rintro ⟨p, hp, hns, hnsne, o, howner, c, hc1, hc2⟩
      refine ⟨p, hp, ?_⟩
      dsimp only
      have hname : ¬(goTrimSpace p.name = "") := fun hc => hnsne (hns.symm.trans hc)
      rw [if_neg hname, howner]
      dsimp only
      rw [if_pos ((identitiesMatch_iff_intersect _ _).mpr ⟨c, hc1, hc2⟩)]
      exact congrArg some hns
  · intro ps hne
    refine ⟨sortStrings (matchingNamespaces ps user), ?_, ?_, ?_, ?_⟩
    · simp only [resolveUserNamespaces, if_neg hne]
    · exact List.perm_insertionSort _ _
    · exact List.sorted_insertionSort _ _
    · intro ns hsingle
      rw [hsingle]
      rfl

theorem C4_resolution_witness :
    matchingNamespaces [{ name := "team-a", owner := some "ldap:Alice@example.com" }]
        "alice@example.com" ≠ [] ∧
    ∃ l, resolveUserNamespaces
        (.ok [{ name := "team-a", owner := some "ldap:Alice@example.com" }])
        "alice@example.com" = .ok l ∧
      l.Perm (matchingNamespaces [{ name := "team-a", owner := some "ldap:Alice@example.com" }]
        "alice@example.com") ∧
      l.Sorted (fun a b => a ≤ b) ∧
      (∀ ns, matchingNamespaces [{ name := "team-a", owner := some "ldap:Alice@example.com" }]
        "alice@example.com" = [ns] → l = [ns]) :=
  ⟨by decide, (C4_resolution "alice@example.com").2.2.2.2.2 _ (by decide)⟩

/-! ## C5 -/

/-- C5 counterexample: with the claim's own normalization order (trim, then
strip surrounding quotes, then lower-case), `" \"alice\" "` and `"alice"`
normalize to the same base value `alice`, yet the matcher judges them
unequal: the source strips quotes before trimming, so the quoted input keeps
its quotes and its sole candidate is `"alice"` with quotes. -/
theorem C5_counterexample :
    claimNormalizeIdentity " \"alice\" ".data = claimNormalizeIdentity "alice".data ∧
    claimNormalizeIdentity "alice".data ≠ [] ∧
    identitiesMatch (identityCandidates " \"alice\" ".data)
      (identityCandidates "alice".data) = false :=
  ⟨by decide, by decide, by decide⟩

/-- C5 (amended): the matcher judges two identity strings equal exactly when
their candidate sets intersect, where the candidate set is the source-order
normalized form (surrounding quotes stripped, then trimmed, then
lower-cased) together with, for each of ':', '|', '#', the trimmed non-empty
substring after that separator's last occurrence; consequently strings with
equal non-empty normalized values always match, tolerating separator
prefixing as in the `ldap:alice@example.com` / `alice@example.com` pair. -/
theorem C5_identity_matcher :
    (∀ u1 u2 : List Char,
      identitiesMatch (identityCandidates u1) (identityCandidates u2) = true ↔
        ∃ c, c ∈ identityCandidates u1 ∧ c ∈ identityCandidates u2) ∧
    (∀ u : List Char, normalizeIdentity u ≠ [] →
      normalizeIdentity u ∈ identityCandidates u) ∧
    (∀ u1 u2 : List Char, normalizeIdentity u1 = normalizeIdentity u2 →
      normalizeIdentity u1 ≠ [] →
      identitiesMatch (identityCandidates u1) (identityCandidates u2) = true) ∧
    identitiesMatch (identityCandidates "ldap:alice@example.com".data)
      (identityCandidates "alice@example.com".data) = true ∧
    identitiesMatch (identityCandidates "alice@example.com".data)
      (identityCandidates "ldap:alice@example.com".data) = true := by
  refine ⟨fun u1 u2 => identitiesMatch_iff_intersect _ _,
    normalize_mem_identityCandidates, ?_, by decide, by decide⟩
  intro u1 u2 heq hne
  refine (identitiesMatch_iff_intersect _ _).mpr
    ⟨normalizeIdentity u1, normalize_mem_identityCandidates u1 hne, ?_⟩
  rw [heq]
  exact normalize_mem_identityCandidates u2 (heq ▸ hne)

theorem C5_identity_matcher_witness :
    (normalizeIdentity "Alice@Example.com ".data = normalizeIdentity "alice@example.com".data ∧
      normalizeIdentity "Alice@Example.com ".data ≠ []) ∧
    identitiesMatch (identityCandidates "Alice@Example.com ".data)
      (identityCandidates "alice@example.com".data) = true :=
  ⟨⟨by decide, by decide⟩, C5_identity_matcher.2.2.1 _ _ (by decide) (by decide)⟩

/-! ## C6 -/

theorem decodeDataEntries_error_shape (m : StrMap) (e : BuildErr)
    (h : decodeDataEntries m = .error e) :
    e = .emptyDataKey ∨ ∃ k, e = .invalidBase64 k := by
  induction m with
  | nil => simp [decodeDataEntries] at h
  | cons kv rest ih =>
    obtain ⟨k, v⟩ := kv
    unfold decodeDataEntries at h
    by_cases hk : goTrimSpace k = ""
    · rw [if_pos hk] at h
      exact Or.inl (Except.error.inj h).symm
    · rw [if_neg hk] at h
      cases hdec : decodeBase64 v with
      | none =>
        rw [hdec] at h
        exact Or.inr ⟨k, (Except.error.inj h).symm⟩
      | some bytes =>
        rw [hdec] at h
        cases hrest : decodeDataEntries rest with
        | error e2 =>
          rw [hrest] at h
          have he : e2 = e := Except.error.inj h
          exact ih (he ▸ hrest)
        | ok m2 =>
          rw [hrest] at h
          simp at h

/-- C6: the resolved secret type is the payload type, `Opaque` when blank; a
blocked type fails with the blocked error before the allow set is consulted
(for every allow set, including ones containing the type); a type in
neither set fails with the not-in-allowed-list error; and a type in the
allow set and not in the blocked set passes the type check — the validator
never emits a type error for it, and on success the built object carries it. -/
theorem C6_type_policy (allowedTypes blockedTypes : List String)
    (req : SecretUpsertRequest)
    (hns : goTrimSpace req.Namespace ≠ "") (hname : goTrimSpace req.Name ≠ "")
    (hdns : isDNS1123Subdomain (goTrimSpace req.Name) = true) :
    ((if req.Typ = "" then secretTypeOpaque else req.Typ) ∈ blockedTypes →
      validateAndBuildSecret allowedTypes blockedTypes req =
        .error (.typeBlocked (if req.Typ = "" then secretTypeOpaque else req.Typ))) ∧
    ((if req.Typ = "" then secretTypeOpaque else req.Typ) ∉ blockedTypes →
      (if req.Typ = "" then secretTypeOpaque else req.Typ) ∉ allowedTypes →
      validateAndBuildSecret allowedTypes blockedTypes req =
        .error (.typeNotAllowed (if req.Typ = "" then secretTypeOpaque else req.Typ))) ∧
    ((if req.Typ = "" then secretTypeOpaque else req.Typ) ∉ blockedTypes →
      (if req.Typ = "" then secretTypeOpaque else req.Typ) ∈ allowedTypes →
      (∀ u, validateAndBuildSecret allowedTypes blockedTypes req ≠
          .error (.typeBlocked u) ∧
        validateAndBuildSecret allowedTypes blockedTypes req ≠
          .error (.typeNotAllowed u)) ∧
      (∀ sec, validateAndBuildSecret allowedTypes blockedTypes req = .ok sec →
        sec.Typ = (if req.Typ = "" then secretTypeOpaque else req.Typ))) := by
  have hdns' : ¬¬isDNS1123Subdomain (goTrimSpace req.Name) = true := by
    simp [hdns]
  refine ⟨?_, ?_, ?_⟩
  · intro hblocked
    unfold validateAndBuildSecret
    rw [if_neg hns, if_neg hname, if_neg hdns', if_pos hblocked]
  · intro hblocked hallowed
    unfold validateAndBuildSecret
    rw [if_neg hns, if_neg hname, if_neg hdns', if_neg hblocked, if_pos hallowed]
  · intro hblocked hallowed
    have hchar :
        validateAndBuildSecret allowedTypes blockedTypes req = .error .dataRequired ∨
        (∃ e, validateAndBuildSecret allowedTypes blockedTypes req = .error e ∧
          (e = .emptyDataKey ∨ ∃ k, e = .invalidBase64 k)) ∨
        validateAndBuildSecret allowedTypes blockedTypes req = .error .dockerKeyRequired ∨
        (∃ sec, validateAndBuildSecret allowedTypes blockedTypes req = .ok sec ∧
          sec.Typ = (if req.Typ = "" then secretTypeOpaque else req.Typ)) := by
      unfold validateAndBuildSecret
      rw [if_neg hns, if_neg hname, if_neg hdns', if_neg hblocked,
        if_neg (not_not_intro hallowed)]
      by_cases hdata : (req.Data.getD []).length = 0 ∧ (req.StringData.getD []).length = 0
      · rw [if_pos hdata]
        exact Or.inl rfl
      · rw [if_neg hdata]
        cases hdec : decodeDataEntries (req.Data.getD []) with
        | error e =>
          exact Or.inr (Or.inl ⟨e, rfl, decodeDataEntries_error_shape _ _ hdec⟩)
        | ok decoded =>
          dsimp only
          by_cases hdocker :
              (if req.Typ = "" then secretTypeOpaque else req.Typ) = secretTypeDockerConfigJson ∧
              (decoded.find? (fun kv => kv.1 = dockerConfigJsonKey)).isNone ∧
              (lookupMap (req.StringData.getD []) dockerConfigJsonKey).isNone
          · rw [if_pos hdocker]
            exact Or.inr (Or.inr (Or.inl rfl))
          · rw [if_neg hdocker]
            exact Or.inr (Or.inr (Or.inr ⟨_, rfl, rfl⟩))
    constructor
    · intro u
      rcases hchar with h | ⟨e, h, hshape⟩ | h | ⟨sec, h, htyp⟩
      · rw [h]
        exact ⟨by simp, by simp⟩
      · rw [h]
        rcases hshape with rfl | ⟨k, rfl⟩
        · exact ⟨by simp, by simp⟩
        · exact ⟨by simp, by simp⟩
      · rw [h]
        exact ⟨by simp, by simp⟩
      · rw [h]
        exact ⟨by simp, by simp⟩
    · intro sec hsec
      rcases hchar with h | ⟨e, h, hshape⟩ | h | ⟨sec2, h, htyp⟩
      · rw [h] at hsec
        simp at hsec
      · rw [h] at hsec
        simp at hsec
      · rw [h] at hsec
        simp at hsec
      · rw [h] at hsec
        rw [← Except.ok.inj hsec]
        exact htyp

theorem C6_type_policy_witness :
    (goTrimSpace "team-a" ≠ "" ∧ goTrimSpace "my-secret" ≠ "" ∧
      isDNS1123Subdomain (goTrimSpace "my-secret") = true ∧
      (secretTypeServiceAccountToken ∈ serverBlockedTypes)) ∧
    validateAndBuildSecret serverAllowedTypes serverBlockedTypes
        { Namespace := "team-a", Name := "my-secret", Typ := secretTypeServiceAccountToken,
          Data := none, StringData := some [("a", "b")], Labels := none, Annotations := none } =
      .error (.typeBlocked secretTypeServiceAccountToken) :=
  ⟨⟨by decide, by decide, by decide, by decide⟩,
    (C6_type_policy serverAllowedTypes serverBlockedTypes
      { Namespace := "team-a", Name := "my-secret", Typ := secretTypeServiceAccountToken,
        Data := none, StringData := some [("a", "b")], Labels := none, Annotations := none }
      (by decide) (by decide) (by decide)).1 (by decide)⟩

/-! ## C7 -/

theorem validateAndBuildSecret_ok_shape (allowedTypes blockedTypes : List String)
    (req : SecretUpsertRequest) (sec : Secret)
    (h : validateAndBuildSecret allowedTypes blockedTypes req = .ok sec) :
    sec.Labels = some (ensureManagedLabels req.Labels) ∧
    sec.Annotations = copyStringMap req.Annotations ∧
    sec.StringData = copyStringMap req.StringData ∧
    sec.Name = goTrimSpace req.Name ∧
    sec.Namespace = goTrimSpace req.Namespace ∧
    sec.Typ = (if req.Typ = "" then secretTypeOpaque else req.Typ) := by
  simp only [validateAndBuildSecret] at h
  repeat' split at h
  all_goals cases h
  all_goals refine ⟨rfl, rfl, rfl, rfl, rfl, ?_⟩
  all_goals split <;> simp_all

theorem copyStringMap_copy (m : Option StrMap) :
    copyStringMap (copyStringMap m) = copyStringMap m := by
  cases m <;> rfl

theorem ensureManagedLabels_copy (m : Option StrMap) :
    ensureManagedLabels (copyStringMap m) = ensureManagedLabels m := by
  cases m <;> rfl

theorem create_state_managed (st : ClusterState) (userNamespace : String)
    (req : SecretUpsertRequest) :
    ∀ s, s ∈ (handleSecretCreate st userNamespace req).2 →
      s ∈ st ∨ isManagedSecret s = true := by
  intro s hs
  unfold handleSecretCreate at hs
  by_cases hq : goTrimSpace req.Namespace ≠ "" ∧ goTrimSpace req.Namespace ≠ userNamespace
  · rw [if_pos hq] at hs
    exact Or.inl hs
  · rw [if_neg hq] at hs
    dsimp only at hs
    cases hval : validateAndBuildSecret serverAllowedTypes serverBlockedTypes
        { req with Namespace := userNamespace,
                   Labels := some (ensureManagedLabels req.Labels) } with
    | error e =>
      rw [hval] at hs
      exact Or.inl hs
    | ok secret =>
      rw [hval] at hs
      dsimp only at hs
      unfold kubeCreateSecret at hs
      by_cases hex :
          st.any (fun s0 => s0.Namespace = secret.Namespace && s0.Name = secret.Name) = true
      · rw [if_pos hex] at hs
        exact Or.inl hs
      · rw [if_neg hex] at hs
        dsimp only at hs
        rcases List.mem_append.mp hs with h | h
        · exact Or.inl h
        · right
          have hsingle : s = applyStringData secret := List.mem_singleton.mp h
          rw [hsingle, isManagedSecret_applyStringData]
          have hshape := validateAndBuildSecret_ok_shape _ _ _ _ hval
          unfold isManagedSecret
          rw [hshape.1]
          simp [lookupMap_ensureManagedLabels_self]

theorem update_state_managed (st : ClusterState) (userNamespace secretName : String)
    (req : SecretUpsertRequest) :
    ∀ s, s ∈ (handleSecretUpdate st userNamespace secretName req).2 →
      s ∈ st ∨ isManagedSecret s = true := by
  intro s hs
  unfold handleSecretUpdate at hs
  cases hget : getManagedSecret st userNamespace secretName with
  | error e =>
    rw [hget] at hs
    exact Or.inl hs
  | ok existing =>
    rw [hget] at hs
    dsimp only at hs
    by_cases hq : goTrimSpace req.Namespace ≠ "" ∧ goTrimSpace req.Namespace ≠ userNamespace
    · rw [if_pos hq] at hs
      exact Or.inl hs
    · rw [if_neg hq] at hs
      by_cases hn : goTrimSpace req.Name ≠ "" ∧ goTrimSpace req.Name ≠ secretName
      · rw [if_pos hn] at hs
        exact Or.inl hs
      · rw [if_neg hn] at hs
        cases hval : validateAndBuildSecret serverAllowedTypes serverBlockedTypes
            (updateEffectiveRequest existing userNamespace secretName req) with
        | error e =>
          rw [hval] at hs
          exact Or.inl hs
        | ok updatedSecret =>
          rw [hval] at hs
          dsimp only at hs
          unfold kubeUpdateSecret at hs
          set submitted : Secret :=
            { updatedSecret with ResourceVersion := existing.ResourceVersion } with hsub
          by_cases hex :
              st.any (fun s0 => s0.Namespace = submitted.Namespace &&
                s0.Name = submitted.Name) = true
          · rw [if_pos hex] at hs
            dsimp only at hs
            obtain ⟨t, ht, rfl⟩ := List.mem_map.mp hs
            by_cases hcond : t.Namespace = submitted.Namespace ∧ t.Name = submitted.Name
            · right
              rw [if_pos (by simp [hcond.1, hcond.2])]
              rw [isManagedSecret_applyStringData]
              have hshape := validateAndBuildSecret_ok_shape _ _ _ _ hval
              have hlab : submitted.Labels = updatedSecret.Labels := rfl
              unfold isManagedSecret
              rw [hlab, hshape.1]
              simp [lookupMap_ensureManagedLabels_self]
            · left
              rw [if_neg (by simpa [Bool.and_eq_true] using hcond)]
              exact ht
          · rw [if_neg hex] at hs
            exact Or.inl hs

/-- C7: every secret the validator/builder produces carries the label
`managed-by=kubeflow-secrets` with a caller-supplied value for the key
overwritten and all other keys preserved; its annotation and stringData maps
equal copies of the payload maps; and through both the create and update
handlers every object newly stored in the backend is managed. In the Go
code the copies are fresh allocations (`copyStringMap` rebuilds the map), so
the built object never aliases the request's maps; in this pure model that
freshness is expressed by the copies being constructed values whose contents
coincide with the payload's. -/
theorem C7_builder_managed_label :
    (∀ m : Option StrMap,
      lookupMap (ensureManagedLabels m) managedByLabelKey = some managedByLabelValue) ∧
    (∀ (m : Option StrMap) k, k ≠ managedByLabelKey →
      lookupMap (ensureManagedLabels m) k = lookupMap (m.getD []) k) ∧
    (∀ allowedTypes blockedTypes req sec,
      validateAndBuildSecret allowedTypes blockedTypes req = .ok sec →
      sec.Labels = some (ensureManagedLabels req.Labels) ∧
      lookupMap (ensureManagedLabels req.Labels) managedByLabelKey =
        some managedByLabelValue ∧
      sec.Annotations = copyStringMap req.Annotations ∧
      sec.StringData = copyStringMap req.StringData) ∧
    (∀ st userNamespace req s, s ∈ (handleSecretCreate st userNamespace req).2 →
      s ∈ st ∨ isManagedSecret s = true) ∧
    (∀ st userNamespace secretName req s,
      s ∈ (handleSecretUpdate st userNamespace secretName req).2 →
      s ∈ st ∨ isManagedSecret s = true) := by
  refine ⟨lookupMap_ensureManagedLabels_self, lookupMap_ensureManagedLabels_other, ?_, ?_, ?_⟩
  · intro allowedTypes blockedTypes req sec h
    have hshape := validateAndBuildSecret_ok_shape _ _ _ _ h
    exact ⟨hshape.1, lookupMap_ensureManagedLabels_self _, hshape.2.1, hshape.2.2.1⟩
  · intro st userNamespace req s hs
    exact create_state_managed st userNamespace req s hs
  · intro st userNamespace secretName req s hs
    exact update_state_managed st userNamespace secretName req s hs

theorem C7_builder_managed_label_witness :
    validateAndBuildSecret serverAllowedTypes serverBlockedTypes
        { Namespace := "team-a", Name := "my-secret", Typ := "",
          Data := none, StringData := some [("a", "b")],
          Labels := some [("managed-by", "evil"), ("app", "x")], Annotations := none } =
      .ok { Name := "my-secret", Namespace := "team-a", Typ := "Opaque",
            Labels := some [("app", "x"), ("managed-by", "kubeflow-secrets")],
            Annotations := none, Data := [], StringData := some [("a", "b")],
            ResourceVersion := "", CreationTimestamp := 0 } ∧
    (lookupMap (ensureManagedLabels (some [("managed-by", "evil"), ("app", "x")]))
        managedByLabelKey = some managedByLabelValue ∧
      ensureManagedLabels (some [("managed-by", "evil"), ("app", "x")]) =
        [("app", "x"), ("managed-by", "kubeflow-secrets")]) :=
  ⟨rfl,
    ⟨(C7_builder_managed_label.2.2.1 serverAllowedTypes serverBlockedTypes
        { Namespace := "team-a", Name := "my-secret", Typ := "",
          Data := none, StringData := some [("a", "b")],
          Labels := some [("managed-by", "evil"), ("app", "x")], Annotations := none }
        { Name := "my-secret", Namespace := "team-a", Typ := "Opaque",
          Labels := some [("app", "x"), ("managed-by", "kubeflow-secrets")],
          Annotations := none, Data := [], StringData := some [("a", "b")],
          ResourceVersion := "", CreationTimestamp := 0 }
        rfl).2.1, by decide⟩⟩

/-! ## C8 -/

/-- C8: on update the path name and the resolved namespace override the
payload (a non-blank payload name differing from the path name fails 400
before any write, leaving the state untouched), and omitted (`nil`) payload
labels or annotation maps are carried forward from the existing object into
the effective request and into the built object. -/
theorem C8_update_authoritative (st : ClusterState) (userNamespace secretName : String)
    (req : SecretUpsertRequest) (existing : Secret)
    (hget : getManagedSecret st userNamespace secretName = .ok existing)
    (hnsok : ¬(goTrimSpace req.Namespace ≠ "" ∧ goTrimSpace req.Namespace ≠ userNamespace)) :
    ((goTrimSpace req.Name ≠ "" ∧ goTrimSpace req.Name ≠ secretName) →
      handleSecretUpdate st userNamespace secretName req =
        ((400, .err "secret name in payload does not match path"), st)) ∧
    (updateEffectiveRequest existing userNamespace secretName req).Name = secretName ∧
    (updateEffectiveRequest existing userNamespace secretName req).Namespace = userNamespace ∧
    (req.Labels = none →
      (updateEffectiveRequest existing userNamespace secretName req).Labels =
        some (ensureManagedLabels existing.Labels)) ∧
    (req.Annotations = none →
      (updateEffectiveRequest existing userNamespace secretName req).Annotations =
        copyStringMap existing.Annotations) ∧
    (∀ sec, validateAndBuildSecret serverAllowedTypes serverBlockedTypes
        (updateEffectiveRequest existing userNamespace secretName req) = .ok sec →
      sec.Name = goTrimSpace secretName ∧ sec.Namespace = goTrimSpace userNamespace ∧
      (req.Labels = none → sec.Labels = some (ensureManagedLabels existing.Labels)) ∧
      (req.Annotations = none → sec.Annotations = copyStringMap existing.Annotations)) := by
  have hname_eff : (updateEffectiveRequest existing userNamespace secretName req).Name =
      secretName := by
    unfold updateEffectiveRequest
    dsimp only
    split <;> split <;> rfl
  have hns_eff : (updateEffectiveRequest existing userNamespace secretName req).Namespace =
      userNamespace := by
    unfold updateEffectiveRequest
    dsimp only
    split <;> split <;> rfl
  have hlab_eff : req.Labels = none →
      (updateEffectiveRequest existing userNamespace secretName req).Labels =
        some (ensureManagedLabels existing.Labels) := by
    intro hl
    cases ha : req.Annotations with
    | none => simp [updateEffectiveRequest, hl, ha, ensureManagedLabels_copy]
    | some a => simp [updateEffectiveRequest, hl, ha, ensureManagedLabels_copy]
  have hann_eff : req.Annotations = none →
      (updateEffectiveRequest existing userNamespace secretName req).Annotations =
        copyStringMap existing.Annotations := by
    intro ha
    cases hl : req.Labels with
    | none => simp [updateEffectiveRequest, hl, ha]
    | some l => simp [updateEffectiveRequest, hl, ha]
  refine ⟨?_, hname_eff, hns_eff, hlab_eff, hann_eff, ?_⟩
  · intro hmismatch
    unfold handleSecretUpdate
    rw [hget]
    dsimp only
    rw [if_neg hnsok, if_pos hmismatch]
  · intro sec hsec
    have hshape := validateAndBuildSecret_ok_shape _ _ _ _ hsec
    refine ⟨by rw [hshape.2.2.2.1, hname_eff], by rw [hshape.2.2.2.2.1, hns_eff], ?_, ?_⟩
    · intro hl
      rw [hshape.1, hlab_eff hl, ensureManagedLabels_idem]
    · intro ha
      rw [hshape.2.1, hann_eff ha, copyStringMap_copy]

theorem C8_update_authoritative_witness :
    (getManagedSecret [sampleManaged] "team-a" "m1" = .ok sampleManaged ∧
      ¬(goTrimSpace "" ≠ "" ∧ goTrimSpace "" ≠ "team-a") ∧
      (goTrimSpace "other" ≠ "" ∧ goTrimSpace "other" ≠ "m1")) ∧
    handleSecretUpdate [sampleManaged] "team-a" "m1"
        { Namespace := "", Name := "other", Typ := "", Data := none,
          StringData := some [("a", "b")], Labels := none, Annotations := none } =
      ((400, .err "secret name in payload does not match path"), [sampleManaged]) :=
  ⟨⟨rfl, by decide, by decide⟩,
    (C8_update_authoritative [sampleManaged] "team-a" "m1"
      { Namespace := "", Name := "other", Typ := "", Data := none,
        StringData := some [("a", "b")], Labels := none, Annotations := none }
      sampleManaged rfl (by decide)).1 (by decide)⟩

/-! ## C9 -/

/-- The stored object after the C9 create: the backend has merged
`stringData` into `data` as UTF-8 bytes. -/
def roundtripStored : Secret :=
  { Name := "my-secret", Namespace := "team-a", Typ := "Opaque",
    Labels := some [("managed-by", "kubeflow-secrets")], Annotations := none,
    Data := [("a", strBytes "b")], StringData := none, ResourceVersion := "",
    CreationTimestamp := 0 }

/-- The detail response of the C9 read-back. -/
def roundtripDetail : SecretDetailResponse :=
  { Name := "my-secret", Namespace := "team-a", Typ := "Opaque", CreationTimestamp := 0,
    Labels := some [("managed-by", "kubeflow-secrets")], Annotations := none,
    Data := [("a", "Yg==")], StringData := [("a", "b")] }

/-- C9: creating a secret through the gateway with `stringData={"a":"b"}`
(the backend merging stringData into the stored binary data) and reading it
back yields a detail response where `data["a"]` is the standard base64
encoding of `"b"` (`"Yg=="`) and, the stored value being valid UTF-8,
`stringData["a"]` is `"b"`. -/
theorem C9_roundtrip :
    handleSecretCreate ([] : ClusterState) "team-a"
        { Namespace := "", Name := "my-secret", Typ := "", Data := none,
          StringData := some [("a", "b")], Labels := none, Annotations := none } =
      ((201, .upsert "my-secret" "team-a" "Opaque"), [roundtripStored]) ∧
    handleSecretGet [roundtripStored] "team-a" "my-secret" = (200, .detail roundtripDetail) ∧
    lookupMap roundtripDetail.Data "a" = some (encodeBase64Str (strBytes "b")) ∧
    encodeBase64Str (strBytes "b") = "Yg==" ∧
    utf8Decode (strBytes "b") = some "b".data ∧
    lookupMap roundtripDetail.StringData "a" = some "b" :=
  ⟨rfl, rfl, by decide, by decide, by decide, by decide⟩

/-! ## C10 -/

/-- C10: the namespace a request is judged against is the first non-blank
among the `namespace` query parameter, the `ns` query parameter, the
`x-kubeflow-namespace` header and the `kubeflow-namespace` header, in that
order; when all four are blank, the lexicographically smallest resolved
namespace is the default; and a taken value matching none of the caller's
resolved namespaces makes the request scoper reject with 403 — so the
cross-namespace check governs the `ns` parameter and both headers too. -/
theorem C10_requested_namespace :
    (∀ r : Request, requestedNamespace r =
      (if goTrimSpace r.queryNamespace ≠ "" then goTrimSpace r.queryNamespace
       else if goTrimSpace r.queryNs ≠ "" then goTrimSpace r.queryNs
       else if goTrimSpace r.headerXKubeflowNamespace ≠ "" then
         goTrimSpace r.headerXKubeflowNamespace
       else goTrimSpace r.headerKubeflowNamespace)) ∧
    (∀ (profiles : List Profile) (user : String) (l : List String) (r : Request),
      resolveUserNamespaces (.ok profiles) user = .ok l →
      requestedNamespace r = "" →
      ∃ d, resolveNamespaceFromRequest r l = some d ∧ d ∈ l ∧ ∀ x ∈ l, d ≤ x) ∧
    (∀ (profilesResult : Except String (List Profile)) (r : Request) (user : String)
        (nss : List String),
      identityFromRequest r = .ok user →
      resolveUserNamespaces profilesResult user = .ok nss →
      requestedNamespace r ≠ "" → requestedNamespace r ∉ nss →
      userContext profilesResult r =
        .error (403, "requested namespace is not owned by current user")) := by
  refine ⟨?_, ?_,
    fun pr r user nss hid hres hne hnot => userContext_rejects pr r user nss hid hres hne hnot⟩
  · intro r
    unfold requestedNamespace
    simp only [firstNonEmpty, goTrimSpace_idem]
    split_ifs with h1 h2 h3 h4
    · rfl
    · rfl
    · rfl
    · rfl
    · exact (not_not.mp h4).symm
  · intro profiles user l r hres hblank
    have hchar : matchingNamespaces profiles user ≠ [] ∧
        l = sortStrings (matchingNamespaces profiles user) := by
      simp only [resolveUserNamespaces] at hres
      by_cases hm : matchingNamespaces profiles user = []
      · rw [if_pos hm] at hres
        exact absurd hres (by simp)
      · rw [if_neg hm] at hres
        exact ⟨hm, (Except.ok.inj hres).symm⟩
    have hsorted : l.Sorted (fun a b => a ≤ b) := by
      rw [hchar.2]
      exact List.sorted_insertionSort _ _
    have hlne : l ≠ [] := by
      intro hc
      apply hchar.1
      have hperm := List.perm_insertionSort (fun a b => a ≤ b)
        (matchingNamespaces profiles user)
      rw [hchar.2] at hc
      rw [show sortStrings (matchingNamespaces profiles user) =
        List.insertionSort (fun a b => a ≤ b) (matchingNamespaces profiles user) from rfl] at hc
      rw [hc] at hperm
      exact List.perm_nil.mp hperm.symm
    cases l with
    | nil => exact absurd rfl hlne
    | cons d t =>
      refine ⟨d, ?_, List.mem_cons_self d t, ?_⟩
      · unfold resolveNamespaceFromRequest
        dsimp only
        rw [if_pos hblank]
      · intro x hx
        rcases List.mem_cons.mp hx with rfl | hx'
        · exact le_refl x
        · exact (List.sorted_cons.mp hsorted).1 x hx'

theorem C10_requested_namespace_witness :
    (identityFromRequest ⟨"alice@example.com", "", "", "team-b", ""⟩ = .ok "alice@example.com" ∧
      resolveUserNamespaces (.ok [{ name := "team-a", owner := some "alice@example.com" }])
        "alice@example.com" = .ok ["team-a"] ∧
      requestedNamespace ⟨"alice@example.com", "", "", "team-b", ""⟩ ≠ "" ∧
      requestedNamespace ⟨"alice@example.com", "", "", "team-b", ""⟩ ∉ (["team-a"] : List String)) ∧
    userContext (.ok [{ name := "team-a", owner := some "alice@example.com" }])
        ⟨"alice@example.com", "", "", "team-b", ""⟩ =
      .error (403, "requested namespace is not owned by current user") :=
  ⟨⟨rfl, rfl, by decide, by decide⟩,
    C10_requested_namespace.2.2 (.ok [{ name := "team-a", owner := some "alice@example.com" }])
      ⟨"alice@example.com", "", "", "team-b", ""⟩ "alice@example.com" ["team-a"]
      rfl rfl (by decide) (by decide)⟩

end KubeflowSecrets
